import Mathlib

/-!
Shallow embedding of the listen-together backend (invitation ledger,
session store, lifecycle and playback-sync routes) and proofs of the
spec claims about it.

Users, sessions and invitations are keyed by natural-number ids; the
Mongo collections become partial maps `Nat → Option _` inside a global
state `St`.  Timestamps are integers (milliseconds); playback position
is a rational, standing for the JS number.  Each Express route handler
becomes a pure function `St → args → Result × St` mirroring the source
line by line; `new Date()` within one request is a single `now`
parameter.
-/

namespace Audiloy

/-- A track value (`currentTrack` / `queue` element shape in
`ListenSession.ts`). -/
structure Track where
  id : String
  title : String
  artist : String
  uri : String
  artwork : Option String
  duration : Option Int
  deriving Repr, DecidableEq

/-- `playbackState` sub-document of a session. -/
structure PlaybackState where
  position : Rat
  isPlaying : Bool
  updatedAt : Int
  deriving Repr, DecidableEq

/-- A `ListenSession` document. -/
structure Session where
  host : Nat
  participants : List Nat
  currentTrack : Option Track
  queue : List Track
  playbackState : PlaybackState
  isActive : Bool
  endedAt : Option Int
  deriving Repr, DecidableEq

/-- Invitation status enum of `ListenTogetherRequest`. -/
inductive ReqStatus where
  | pending
  | accepted
  | declined
  | expired
  deriving Repr, DecidableEq

/-- A `ListenTogetherRequest` document. -/
structure Invitation where
  fromUser : Nat
  toUser : Nat
  status : ReqStatus
  sessionId : Option Nat
  expiresAt : Int
  deriving Repr, DecidableEq

/-- The fields of a `User` document that these routes touch. -/
structure UserRec where
  friends : List Nat
  listenTogetherRequests : List Nat
  activeListenSession : Option Nat
  deriving Repr, DecidableEq

/-- The durable store: the three collections plus a fresh-id counter
standing for Mongo ObjectId generation for new sessions. -/
structure St where
  users : Nat → Option UserRec
  sessions : Nat → Option Session
  requests : Nat → Option Invitation
  nextSessionId : Nat

/-- Point update of a partial map (a single-document write). -/
def fupdate {α : Type} (f : Nat → Option α) (k : Nat) (v : Option α) :
    Nat → Option α :=
  fun n => if n = k then v else f n

@[simp] theorem fupdate_same {α : Type} (f : Nat → Option α) (k : Nat)
    (v : Option α) : fupdate f k v k = v := by
  simp [fupdate]

@[simp] theorem fupdate_other {α : Type} (f : Nat → Option α) (k n : Nat)
    (v : Option α) (h : n ≠ k) : fupdate f k v n = f n := by
  simp [fupdate, h]

/-- Result of `POST /requests/:requestId/decline`. -/
inductive DeclineResult where
  | notFound
  | forbidden
  | ok
  deriving Repr, DecidableEq

/-- `POST /requests/:requestId/decline` (listen-together.ts).
Looks the request up, checks only that the caller is the recipient,
then stores `status := declined` and filters the request id out of the
caller's inbound list.  There is no check that the request is still
pending. -/
def declineRequest (st : St) (requestId userId : Nat) :
    DeclineResult × St :=
  match st.requests requestId with
  | none => (.notFound, st)
  | some request =>
    if request.toUser ≠ userId then (.forbidden, st)
    else
      let st1 : St :=
        { st with requests := (fupdate st.requests requestId
            (some { request with status := .declined })) }
      match st1.users userId with
      | none => (.ok, st1)
      | some user =>
        (.ok, { st1 with users := (fupdate st1.users userId
            (some { user with listenTogetherRequests :=
              user.listenTogetherRequests.filter (fun i => i ≠ requestId) })) })

/-- Result of `POST /requests/:requestId/accept`. -/
inductive AcceptResult where
  | notFound
  | forbidden
  | invalidState
  | expired
  | userNotFound
  | ok (sessionId : Nat)
  deriving Repr, DecidableEq

/-- `findByIdAndUpdate(sid, {isActive:false, endedAt:now})` applied to
an optional pointer: deactivates the referenced session when it
exists, otherwise a no-op. -/
def deactivatePointer (st : St) (ptr : Option Nat) (now : Int) : St :=
  match ptr with
  | none => st
  | some sid =>
    match st.sessions sid with
    | none => st
    | some s =>
      { st with sessions := (fupdate st.sessions sid
          (some { s with isActive := false, endedAt := some now })) }

/-- The fresh session created on acceptance. -/
def newSessionDoc (host participant : Nat) (now : Int) : Session :=
  { host := host
    participants := [host, participant]
    currentTrack := none
    queue := []
    playbackState := { position := 0, isPlaying := false, updatedAt := now }
    isActive := true
    endedAt := none }

/-- `POST /requests/:requestId/accept` (listen-together.ts).
Mirrors the handler: recipient check, pending check, expiry check
(which persists `expired` on the error path), then deactivation of both
users' current active sessions, creation of the new session, request
update, and both user-pointer writes. -/
def acceptRequest (st : St) (requestId userId : Nat) (now : Int) :
    AcceptResult × St :=
  match st.requests requestId with
  | none => (.notFound, st)
  | some request =>
    if request.toUser ≠ userId then (.forbidden, st)
    else if request.status ≠ .pending then (.invalidState, st)
    else if request.expiresAt < now then
      (.expired, { st with requests := (fupdate st.requests requestId
          (some { request with status := .expired })) })
    else
      match st.users request.fromUser, st.users userId with
      | some hostUser, some participantUser =>
        let st1 := deactivatePointer st hostUser.activeListenSession now
        let st2 := deactivatePointer st1 participantUser.activeListenSession now
        let sid := st.nextSessionId
        let st3 : St :=
          { st2 with
            sessions := (fupdate st2.sessions sid
              (some (newSessionDoc request.fromUser userId now)))
            nextSessionId := st.nextSessionId + 1 }
        let st4 : St :=
          { st3 with requests := (fupdate st3.requests requestId
              (some { request with status := .accepted, sessionId := some sid })) }
        let st5 : St :=
          { st4 with users := (fupdate st4.users request.fromUser
              (some { hostUser with activeListenSession := some sid })) }
        let st6 : St :=
          { st5 with users := (fupdate st5.users userId
              (some { participantUser with
                activeListenSession := some sid
                listenTogetherRequests :=
                  (participantUser.listenTogetherRequests.filter
                    (fun i => i ≠ requestId)) })) }
        (.ok sid, st6)
      | _, _ => (.userNotFound, st)

/-- A sync-request body.  `position = some p` stands for a body whose
`position` passes `typeof position === 'number'` (any number, negative
included); `isPlaying = some b` for a boolean `isPlaying`.
`currentTrack = some t` stands for a truthy `currentTrack` (a JS track
object is always truthy; `none` covers both an omitted field and an
explicit `null`); likewise `queue = some l` stands for a `queue` that
is an array (arrays, even empty ones, are truthy in JS; `none` covers
omitted and falsy values). -/
structure SyncPatch where
  position : Option Rat
  isPlaying : Option Bool
  currentTrack : Option Track
  queue : Option (List Track)
  deriving Repr, DecidableEq

/-- Result of `POST /:sessionId/sync`. -/
inductive SyncResult where
  | notFound
  | invalidState
  | forbidden
  | ok
  deriving Repr, DecidableEq

/-- The field-by-field patch application of the sync handler
(listen-sessions.ts lines 97-116): each guarded assignment, then the
unconditional `updatedAt` stamp. -/
def applyPatch (session : Session) (patch : SyncPatch) (now : Int) :
    Session :=
  let ps0 := session.playbackState
  let ps1 := match patch.position with
    | some p => { ps0 with position := p }
    | none => ps0
  let ps2 := match patch.isPlaying with
    | some b => { ps1 with isPlaying := b }
    | none => ps1
  let ct := match patch.currentTrack with
    | some t => some t
    | none => session.currentTrack
  let q := match patch.queue with
    | some l => l
    | none => session.queue
  { session with
    currentTrack := ct
    queue := q
    playbackState := { ps2 with updatedAt := now } }

/-- `POST /:sessionId/sync` (listen-sessions.ts).  Look-up, active
check, host check, then partial patch application and save. -/
def syncPlayback (st : St) (sessionId userId : Nat) (patch : SyncPatch)
    (now : Int) : SyncResult × St :=
  match st.sessions sessionId with
  | none => (.notFound, st)
  | some session =>
    if session.isActive = false then (.invalidState, st)
    else if session.host ≠ userId then (.forbidden, st)
    else
      (.ok, { st with sessions := (fupdate st.sessions sessionId
          (some (applyPatch session patch now))) })

/-- `GET /active` (listen-sessions.ts).  Returns the user's active
session, clearing the pointer (read-repair) when it is stale; the
returned `Option Session` is `none` for the `{ session: null }`
responses (including the unknown-user case). -/
def getActiveSession (st : St) (userId : Nat) : Option Session × St :=
  match st.users userId with
  | none => (none, st)
  | some user =>
    match user.activeListenSession with
    | none => (none, st)
    | some sid =>
      match st.sessions sid with
      | some session =>
        if session.isActive then (some session, st)
        else
          (none, { st with users := (fupdate st.users userId
              (some { user with activeListenSession := none })) })
      | none =>
        (none, { st with users := (fupdate st.users userId
            (some { user with activeListenSession := none })) })

/-- Result of `POST /:sessionId/leave`. -/
inductive LeaveResult where
  | sessionNotFound
  | userNotFound
  | ok
  deriving Repr, DecidableEq

/-- Clear a user's `activeListenSession` pointer. -/
def clearPtr (u : UserRec) : UserRec :=
  { u with activeListenSession := none }

/-- `POST /:sessionId/leave` (listen-sessions.ts).  Filters the caller
out of the participants; if the caller is the host or no participant
remains, ends the session and unsets the remaining participants'
pointers (`updateMany`); finally saves the session and clears the
caller's own pointer unconditionally. -/
def leaveSession (st : St) (sessionId userId : Nat) (now : Int) :
    LeaveResult × St :=
  match st.sessions sessionId with
  | none => (.sessionNotFound, st)
  | some session =>
    match st.users userId with
    | none => (.userNotFound, st)
    | some user =>
      let participants2 := session.participants.filter (fun p => p ≠ userId)
      let ended := session.host = userId ∨ participants2 = []
      let session2 : Session :=
        if ended then
          { session with
            participants := participants2
            isActive := false
            endedAt := some now }
        else { session with participants := participants2 }
      let usersAfterMany : Nat → Option UserRec :=
        if ended then
          fun uid =>
            if uid ∈ participants2 then (st.users uid).map clearPtr
            else st.users uid
        else st.users
      let usersFinal : Nat → Option UserRec :=
        fupdate usersAfterMany userId (some (clearPtr user))
      (.ok,
        { st with
          sessions := (fupdate st.sessions sessionId (some session2))
          users := usersFinal })

/-! ### Concrete fixtures used by counterexamples and witnesses -/

/-- A sample track. -/
def trackA : Track :=
  { id := "t1", title := "Song", artist := "Artist", uri := "uri:1"
    artwork := none, duration := none }

/-- An active session hosted by user 1 with participant 2, fresh
playback state. -/
def sessEx : Session :=
  { host := 1, participants := [1, 2], currentTrack := none, queue := []
    playbackState := { position := 0, isPlaying := false, updatedAt := 0 }
    isActive := true, endedAt := none }

/-- A store holding only `sessEx` under id 0. -/
def stSync : St :=
  { users := fun _ => none
    sessions := fun n => if n = 0 then some sessEx else none
    requests := fun _ => none
    nextSessionId := 1 }

/-- The all-absent sync body. -/
def emptyPatch : SyncPatch :=
  { position := none, isPlaying := none, currentTrack := none, queue := none }

/-! ### C6: non-host sync is Forbidden and mutation-free -/

/-- C6: for every active session and every caller that is not the
host, the sync handler answers Forbidden and returns the entire store
unchanged (in particular the session record is untouched). -/
theorem sync_nonhost_forbidden_unchanged
    (st : St) (sessionId userId : Nat) (session : Session)
    (patch : SyncPatch) (now : Int)
    (hs : st.sessions sessionId = some session)
    (hactive : session.isActive = true)
    (hnothost : session.host ≠ userId) :
    syncPlayback st sessionId userId patch now = (.forbidden, st) := by
  simp [syncPlayback, hs, hactive, hnothost]

/-- Witness for C6: participant 2 of `sessEx` (host 1) is rejected and
the store is unchanged. -/
theorem sync_nonhost_forbidden_unchanged_witness :
    stSync.sessions 0 = some sessEx ∧ sessEx.isActive = true ∧
    sessEx.host ≠ 2 ∧
    syncPlayback stSync 0 2 emptyPatch 5 = (.forbidden, stSync) := by
  refine ⟨rfl, rfl, by decide, ?_⟩
  exact sync_nonhost_forbidden_unchanged stSync 0 2 sessEx emptyPatch 5
    rfl rfl (by decide)

/-! ### C7: partial patch semantics -/

/-- C7: a host sync on an active session succeeds; each patch field
present is applied (`currentTrack` and `queue` wholesale), each absent
field keeps its prior value, and `updatedAt` is stamped to `now`
regardless of the fields present. -/
theorem sync_partial_patch_frame
    (st : St) (sessionId : Nat) (session : Session) (patch : SyncPatch)
    (now : Int)
    (hs : st.sessions sessionId = some session)
    (hactive : session.isActive = true) :
    (syncPlayback st sessionId session.host patch now).1 = .ok ∧
    ∃ s', (syncPlayback st sessionId session.host patch now).2.sessions sessionId
        = some s' ∧
      s'.playbackState.position
        = patch.position.getD session.playbackState.position ∧
      s'.playbackState.isPlaying
        = patch.isPlaying.getD session.playbackState.isPlaying ∧
      s'.currentTrack
        = (match patch.currentTrack with
            | some t => some t
            | none => session.currentTrack) ∧
      s'.queue = patch.queue.getD session.queue ∧
      s'.playbackState.updatedAt = now := by
  refine ⟨by simp [syncPlayback, hs, hactive], applyPatch session patch now,
    by simp [syncPlayback, hs, hactive], ?_, ?_, ?_, ?_, ?_⟩ <;>
    rcases patch with ⟨pos, play, ct, q⟩ <;>
    cases pos <;> cases play <;> cases ct <;> cases q <;>
    simp [applyPatch]

/-- A body patching only `isPlaying`. -/
def playPatch : SyncPatch :=
  { position := none, isPlaying := some true
    currentTrack := none, queue := none }

/-- Witness for C7: host 1 patches only `isPlaying`; position, track
and queue survive, `updatedAt` moves to 7. -/
theorem sync_partial_patch_frame_witness :
    stSync.sessions 0 = some sessEx ∧ sessEx.isActive = true ∧
    ((syncPlayback stSync 0 sessEx.host playPatch 7).1 = .ok ∧
      ∃ s', (syncPlayback stSync 0 sessEx.host playPatch 7).2.sessions 0
          = some s' ∧
        s'.playbackState.position
          = playPatch.position.getD sessEx.playbackState.position ∧
        s'.playbackState.isPlaying
          = playPatch.isPlaying.getD sessEx.playbackState.isPlaying ∧
        s'.currentTrack
          = (match playPatch.currentTrack with
              | some t => some t
              | none => sessEx.currentTrack) ∧
        s'.queue = playPatch.queue.getD sessEx.queue ∧
        s'.playbackState.updatedAt = 7) :=
  ⟨rfl, rfl, sync_partial_patch_frame stSync 0 sessEx playPatch 7 rfl rfl⟩

/-! ### C9: a sync can never clear the current track, nor empty the
queue through a falsy value -/

/-- C9: whatever the caller and patch, once the session has a current
track, the stored record after any sync call still has one (a patch's
`currentTrack` is applied only when truthy), and a patch whose `queue`
is falsy (absent/null) leaves the queue exactly as it was. -/
theorem sync_cannot_clear_track_or_queue
    (st : St) (sessionId userId : Nat) (session : Session)
    (patch : SyncPatch) (now : Int)
    (hs : st.sessions sessionId = some session)
    (hct : session.currentTrack.isSome = true) :
    ∀ s', (syncPlayback st sessionId userId patch now).2.sessions sessionId
        = some s' →
      s'.currentTrack.isSome = true ∧
      (patch.queue = none → s'.queue = session.queue) := by
  intro s' hs'
  unfold syncPlayback at hs'
  rw [hs] at hs'
  by_cases hact : session.isActive = false
  · simp [hact, hs] at hs'
    subst hs'
    exact ⟨hct, fun _ => rfl⟩
  · by_cases hh : session.host ≠ userId
    · simp [hact, hh, hs] at hs'
      subst hs'
      exact ⟨hct, fun _ => rfl⟩
    · simp [hact, hh] at hs'
      subst hs'
      constructor
      · cases hc : patch.currentTrack <;>
          simp [applyPatch, hc, hct]
      · intro hq
        cases hp : patch.position <;> cases hpl : patch.isPlaying <;>
          simp [applyPatch, hq, hp, hpl]

/-- `sessEx` but with a current track set. -/
def sessWithTrack : Session :=
  { sessEx with currentTrack := some trackA }

/-- A store holding only `sessWithTrack` under id 0. -/
def stTrack : St :=
  { users := fun _ => none
    sessions := fun n => if n = 0 then some sessWithTrack else none
    requests := fun _ => none
    nextSessionId := 1 }

/-- Witness for C9: the host syncs with an all-absent body; the track
stays set and the queue is untouched. -/
theorem sync_cannot_clear_track_or_queue_witness :
    stTrack.sessions 0 = some sessWithTrack ∧
    sessWithTrack.currentTrack.isSome = true ∧
    (applyPatch sessWithTrack emptyPatch 9).currentTrack.isSome = true ∧
    (emptyPatch.queue = none →
      (applyPatch sessWithTrack emptyPatch 9).queue = sessWithTrack.queue) :=
  ⟨rfl, rfl,
    sync_cannot_clear_track_or_queue stTrack 0 1 sessWithTrack emptyPatch 9
      rfl rfl (applyPatch sessWithTrack emptyPatch 9) rfl⟩

/-! ### C8: position validation -/

/-- A body whose `position` is the number `-5`. -/
def negPatch : SyncPatch :=
  { position := some (-5), isPlaying := none
    currentTrack := none, queue := none }

/-- Counterexample to C8: the sync handler guards `position` only with
`typeof position === 'number'`, so the host's patch `{position: -5}`
on a session whose position was `0` succeeds and stores `-5`:
`playbackState.position` does not remain non-negative. -/
theorem sync_negative_position_counterexample :
    sessEx.playbackState.position = 0 ∧
    (syncPlayback stSync 0 1 negPatch 5).1 = .ok ∧
    ((syncPlayback stSync 0 1 negPatch 5).2.sessions 0).map
      (fun s => s.playbackState.position) = some (-5) := by
  refine ⟨rfl, rfl, ?_⟩
  simp [syncPlayback, stSync, sessEx, applyPatch, negPatch, fupdate]

/-- C8 as amended: the handler performs no non-negativity validation
on `position`; any numeric value — a negative one included — is
accepted (the call succeeds, no Validation error) and stored verbatim,
so the stored position can become negative. -/
theorem sync_position_applied_without_validation
    (st : St) (sessionId : Nat) (session : Session) (patch : SyncPatch)
    (now : Int) (p : Rat)
    (hs : st.sessions sessionId = some session)
    (hactive : session.isActive = true)
    (hp : patch.position = some p)
    (hneg : p < 0) :
    (syncPlayback st sessionId session.host patch now).1 = .ok ∧
    ((syncPlayback st sessionId session.host patch now).2.sessions
        sessionId).map (fun s => s.playbackState.position) = some p ∧
    ¬ (0 : Rat) ≤ p := by
  refine ⟨by simp [syncPlayback, hs, hactive], ?_, not_le.mpr hneg⟩
  have : (syncPlayback st sessionId session.host patch now).2.sessions
      sessionId = some (applyPatch session patch now) := by
    simp [syncPlayback, hs, hactive]
  rw [this]
  cases hpl : patch.isPlaying <;> simp [applyPatch, hp, hpl]

/-- Witness for the amended C8 at the concrete store `stSync`. -/
theorem sync_position_applied_without_validation_witness :
    stSync.sessions 0 = some sessEx ∧ sessEx.isActive = true ∧
    negPatch.position = some (-5) ∧ (-5 : Rat) < 0 ∧
    ((syncPlayback stSync 0 sessEx.host negPatch 5).1 = .ok ∧
      ((syncPlayback stSync 0 sessEx.host negPatch 5).2.sessions 0).map
        (fun s => s.playbackState.position) = some (-5) ∧
      ¬ (0 : Rat) ≤ (-5 : Rat)) :=
  ⟨rfl, rfl, rfl, by norm_num,
    sync_position_applied_without_validation stSync 0 sessEx negPatch 5 (-5)
      rfl rfl rfl (by norm_num)⟩

/-! ### C1: invitation status monotonicity -/

/-- An invitation from 1 to 2 already in the terminal state
`accepted`. -/
def invAccepted : Invitation :=
  { fromUser := 1, toUser := 2, status := .accepted
    sessionId := some 7, expiresAt := 1000 }

/-- A store holding `invAccepted` under request id 0 and its recipient
user 2. -/
def stDecl : St :=
  { users := fun n =>
      if n = 2 then
        some { friends := [1], listenTogetherRequests := [0]
               activeListenSession := some 7 }
      else none
    sessions := fun _ => none
    requests := fun n => if n = 0 then some invAccepted else none
    nextSessionId := 0 }

/-- Counterexample to C1: the decline handler never checks that the
request is still pending, so declining request 0 — already in the
terminal state `accepted` — succeeds and overwrites its status with
`declined`: a terminal state is left. -/
theorem decline_leaves_terminal_state_counterexample :
    (stDecl.requests 0).map Invitation.status = some .accepted ∧
    (declineRequest stDecl 0 2).1 = .ok ∧
    ((declineRequest stDecl 0 2).2.requests 0).map Invitation.status
      = some .declined := by
  refine ⟨rfl, ?_, ?_⟩ <;>
    simp [declineRequest, stDecl, invAccepted, fupdate]

/-- C1 as amended: Accept is monotonic — it refuses (and leaves
untouched) every invitation that is not pending, so its only
transitions are pending→accepted and pending→expired — but Decline
checks only the recipient, never the status, and overwrites any
authorized invitation with `declined`; hence the terminal states
`accepted` and `expired` are not preserved by Decline. -/
theorem invitation_status_amended
    (st : St) (requestId userId : Nat) (now : Int) (inv : Invitation)
    (hr : st.requests requestId = some inv)
    (hterm : inv.status ≠ .pending) :
    (acceptRequest st requestId userId now).2.requests requestId = some inv ∧
    (inv.toUser = userId →
      (declineRequest st requestId userId).1 = .ok ∧
      ((declineRequest st requestId userId).2.requests requestId).map
        Invitation.status = some .declined) := by
  constructor
  · by_cases hto : inv.toUser ≠ userId
    · simp [acceptRequest, hr, hto]
    · simp [acceptRequest, hr, hto, hterm]
  · intro hto
    constructor
    · unfold declineRequest
      rw [hr]
      cases h2 : st.users userId <;> simp [hto, h2]
    · unfold declineRequest
      rw [hr]
      cases h2 : st.users userId <;> simp [hto, h2, fupdate]

/-- Witness for the amended C1 at the concrete store `stDecl`:
request 0 is `accepted`, Accept refuses it unchanged, Decline by
recipient 2 rewrites it to `declined`. -/
theorem invitation_status_amended_witness :
    stDecl.requests 0 = some invAccepted ∧
    invAccepted.status ≠ .pending ∧
    ((acceptRequest stDecl 0 2 50).2.requests 0 = some invAccepted ∧
      (invAccepted.toUser = 2 →
        (declineRequest stDecl 0 2).1 = .ok ∧
        ((declineRequest stDecl 0 2).2.requests 0).map Invitation.status
          = some .declined)) :=
  ⟨rfl, by decide,
    invitation_status_amended stDecl 0 2 50 invAccepted rfl (by decide)⟩

/-! ### C3: expiry discovery on Accept is persisted, second Accept is
InvalidState -/

/-- C3: accepting a stored-pending invitation strictly past its
`expiresAt` fails with Expired and writes `status := expired` back to
the store; a second accept attempt by the same recipient, at any later
time, fails with InvalidState and changes nothing. -/
theorem accept_expired_persists_then_invalid
    (st : St) (requestId userId : Nat) (now now2 : Int) (inv : Invitation)
    (hr : st.requests requestId = some inv)
    (hto : inv.toUser = userId)
    (hpending : inv.status = .pending)
    (hexp : inv.expiresAt < now) :
    (acceptRequest st requestId userId now).1 = .expired ∧
    ((acceptRequest st requestId userId now).2.requests requestId).map
      Invitation.status = some .expired ∧
    acceptRequest (acceptRequest st requestId userId now).2 requestId userId
        now2
      = (.invalidState, (acceptRequest st requestId userId now).2) := by
  have hstep : acceptRequest st requestId userId now
      = (.expired, { st with requests := (fupdate st.requests requestId
          (some { inv with status := .expired })) }) := by
    simp [acceptRequest, hr, hto, hpending, hexp]
  rw [hstep]
  refine ⟨rfl, by simp [fupdate], ?_⟩
  simp [acceptRequest, fupdate, hto]

/-- A request from 1 to 2, still stored `pending`, expiring at time
10. -/
def invPending : Invitation :=
  { fromUser := 1, toUser := 2, status := .pending
    sessionId := none, expiresAt := 10 }

/-- A store holding `invPending` under request id 0. -/
def stPend : St :=
  { users := fun _ => none
    sessions := fun _ => none
    requests := fun n => if n = 0 then some invPending else none
    nextSessionId := 0 }

/-- Witness for C3: recipient 2 accepts request 0 at time 20 (past its
expiry 10), then again at time 30. -/
theorem accept_expired_persists_then_invalid_witness :
    stPend.requests 0 = some invPending ∧ invPending.toUser = 2 ∧
    invPending.status = .pending ∧ invPending.expiresAt < 20 ∧
    ((acceptRequest stPend 0 2 20).1 = .expired ∧
      ((acceptRequest stPend 0 2 20).2.requests 0).map Invitation.status
        = some .expired ∧
      acceptRequest (acceptRequest stPend 0 2 20).2 0 2 30
        = (.invalidState, (acceptRequest stPend 0 2 20).2)) :=
  ⟨rfl, rfl, rfl, by decide,
    accept_expired_persists_then_invalid stPend 0 2 20 30 invPending
      rfl rfl rfl (by decide)⟩

/-! ### C5: GetActiveSession read-repair -/

/-- C5: when a user's pointer references a session that is missing or
no longer active, `GET /active` answers "no session", clears the
pointer, and a second call answers the same through the
absent-pointer branch, leaving the store exactly as it was (no second
repair). -/
theorem getActive_read_repair
    (st : St) (userId sid : Nat) (user : UserRec)
    (hu : st.users userId = some user)
    (hptr : user.activeListenSession = some sid)
    (hstale : ∀ s, st.sessions sid = some s → s.isActive = false) :
    (getActiveSession st userId).1 = none ∧
    ((getActiveSession st userId).2.users userId).map
      UserRec.activeListenSession = some none ∧
    getActiveSession (getActiveSession st userId).2 userId
      = (none, (getActiveSession st userId).2) := by
  have hstep : getActiveSession st userId
      = (none, { st with users := (fupdate st.users userId
          (some { user with activeListenSession := none })) }) := by
    unfold getActiveSession
    cases h2 : st.sessions sid with
    | none => simp [hu, hptr, h2]
    | some s => simp [hu, hptr, h2, hstale s h2]
  rw [hstep]
  refine ⟨rfl, by simp [fupdate], ?_⟩
  simp [getActiveSession, fupdate]

/-- A session that has ended. -/
def sessEnded : Session :=
  { sessEx with isActive := false, endedAt := some 3 }

/-- The user record of user 2 while its pointer still references
session 5. -/
def userStale : UserRec :=
  { friends := [1], listenTogetherRequests := []
    activeListenSession := some 5 }

/-- A store where user 2's pointer still references the ended session
5. -/
def stStale : St :=
  { users := fun n => if n = 2 then some userStale else none
    sessions := fun n => if n = 5 then some sessEnded else none
    requests := fun _ => none
    nextSessionId := 6 }

/-- Witness for C5 at `stStale`: the stale pointer of user 2 is
repaired on the first call and the second call is a no-op. -/
theorem getActive_read_repair_witness :
    stStale.users 2 = some userStale ∧
    userStale.activeListenSession = some 5 ∧
    ((getActiveSession stStale 2).1 = none ∧
      ((getActiveSession stStale 2).2.users 2).map
        UserRec.activeListenSession = some none ∧
      getActiveSession (getActiveSession stStale 2).2 2
        = (none, (getActiveSession stStale 2).2)) :=
  ⟨rfl, rfl,
    getActive_read_repair stStale 2 5 userStale rfl rfl
      (fun _s h => (Option.some.inj h) ▸ rfl)⟩

/-! ### C4: host leave ends the session, non-host leave does not -/

/-- The one-step unfolding of a successful leave: the filtered
membership, the conditional deactivation + `updateMany`, and the
unconditional clearing of the caller's pointer. -/
theorem leaveSession_unfold
    (st : St) (sessionId userId : Nat) (now : Int) (session : Session)
    (user : UserRec)
    (hs : st.sessions sessionId = some session)
    (hu : st.users userId = some user) :
    leaveSession st sessionId userId now =
      (.ok,
        { st with
          sessions := (fupdate st.sessions sessionId (some
            (if session.host = userId ∨
                session.participants.filter (fun p => p ≠ userId) = [] then
              { session with
                participants :=
                  session.participants.filter (fun p => p ≠ userId)
                isActive := false
                endedAt := some now }
            else
              { session with
                participants :=
                  session.participants.filter (fun p => p ≠ userId) })))
          users := (fupdate
            (if session.host = userId ∨
                session.participants.filter (fun p => p ≠ userId) = [] then
              fun uid =>
                if uid ∈ session.participants.filter (fun p => p ≠ userId)
                then (st.users uid).map clearPtr
                else st.users uid
            else st.users)
            userId (some (clearPtr user))) }) := by
  unfold leaveSession
  rw [hs, hu]

/-- C4: on an active session, a leave by the host deactivates the
session (`isActive=false`, `endedAt=now`) and clears every remaining
participant's pointer; a leave by a non-host that still leaves a
participant behind keeps the session active, clears the leaver's own
pointer, and touches no other user. -/
theorem leave_host_ends_nonhost_keeps
    (st : St) (sessionId userId : Nat) (now : Int) (session : Session)
    (user : UserRec)
    (hs : st.sessions sessionId = some session)
    (hu : st.users userId = some user)
    (hactive : session.isActive = true) :
    (leaveSession st sessionId userId now).1 = .ok ∧
    (session.host = userId →
      ((leaveSession st sessionId userId now).2.sessions sessionId).map
          (fun s => (s.isActive, s.endedAt)) = some (false, some now) ∧
      ∀ p ∈ session.participants.filter (fun q => q ≠ userId), ∀ rec,
        (leaveSession st sessionId userId now).2.users p = some rec →
        rec.activeListenSession = none) ∧
    (session.host ≠ userId →
      session.participants.filter (fun q => q ≠ userId) ≠ [] →
      ((leaveSession st sessionId userId now).2.sessions sessionId).map
          Session.isActive = some true ∧
      (leaveSession st sessionId userId now).2.users userId
        = some (clearPtr user) ∧
      ∀ v, v ≠ userId →
        (leaveSession st sessionId userId now).2.users v = st.users v) := by
  have hstep := leaveSession_unfold st sessionId userId now session user hs hu
  refine ⟨by rw [hstep], ?_, ?_⟩
  · intro hh
    have hcond : session.host = userId ∨
        session.participants.filter (fun p => p ≠ userId) = [] := Or.inl hh
    constructor
    · rw [hstep]
      simp only [if_pos hcond]
      simp [fupdate]
    · intro p hp rec hrec
      have hpne : p ≠ userId :=
        of_decide_eq_true (List.mem_filter.mp hp).2
      rw [hstep] at hrec
      simp only [if_pos hcond] at hrec
      rw [fupdate_other _ _ _ _ hpne] at hrec
      simp only [if_pos hp] at hrec
      rcases Option.map_eq_some'.mp hrec with ⟨a, _, ha2⟩
      rw [← ha2]
      rfl
  · intro hh hne
    have hcond : ¬ (session.host = userId ∨
        session.participants.filter (fun p => p ≠ userId) = []) := by
      rintro (h | h)
      · exact hh h
      · exact hne h
    refine ⟨?_, ?_, ?_⟩
    · rw [hstep]
      simp only [if_neg hcond]
      simp [fupdate, hactive]
    · rw [hstep]
      simp only [if_neg hcond]
      simp [fupdate]
    · intro v hv
      rw [hstep]
      simp only [if_neg hcond]
      exact fupdate_other _ _ _ _ hv

/-- A store for leave scenarios: session 0 is `sessEx` (host 1,
participants 1 and 2); users 1 and 2 both point at it. -/
def stLeave : St :=
  { users := fun n =>
      if n = 1 then
        some { friends := [2], listenTogetherRequests := []
               activeListenSession := some 0 }
      else if n = 2 then
        some { friends := [1], listenTogetherRequests := []
               activeListenSession := some 0 }
      else none
    sessions := fun n => if n = 0 then some sessEx else none
    requests := fun _ => none
    nextSessionId := 1 }

/-- The user record of user 1 in `stLeave`. -/
def user1Leave : UserRec :=
  { friends := [2], listenTogetherRequests := []
    activeListenSession := some 0 }

/-- Witness for C4: host 1 leaves session 0 of `stLeave`; the session
ends and participant 2's pointer is cleared. -/
theorem leave_host_ends_nonhost_keeps_witness :
    stLeave.sessions 0 = some sessEx ∧
    stLeave.users 1 = some user1Leave ∧ sessEx.isActive = true ∧
    ((leaveSession stLeave 0 1 9).1 = .ok ∧
      (sessEx.host = 1 →
        ((leaveSession stLeave 0 1 9).2.sessions 0).map
            (fun s => (s.isActive, s.endedAt)) = some (false, some 9) ∧
        ∀ p ∈ sessEx.participants.filter (fun q => q ≠ 1), ∀ rec,
          (leaveSession stLeave 0 1 9).2.users p = some rec →
          rec.activeListenSession = none) ∧
      (sessEx.host ≠ 1 →
        sessEx.participants.filter (fun q => q ≠ 1) ≠ [] →
        ((leaveSession stLeave 0 1 9).2.sessions 0).map
            Session.isActive = some true ∧
        (leaveSession stLeave 0 1 9).2.users 1 = some (clearPtr user1Leave) ∧
        ∀ v, v ≠ 1 →
          (leaveSession stLeave 0 1 9).2.users v = stLeave.users v)) :=
  ⟨rfl, rfl, rfl,
    leave_host_ends_nonhost_keeps stLeave 0 1 9 sessEx user1Leave
      rfl rfl rfl⟩

/-! ### C10: leave clears the caller's pointer unconditionally -/

/-- C10: a leave call on any existing session by any existing user
clears that user's pointer unconditionally — the handler never checks
that the caller is a participant, so a call on an unrelated session
still severs the caller from whatever session their pointer
referenced — while the target session's membership is unchanged
whenever the caller was not a participant, and no other session is
touched. -/
theorem leave_clears_pointer_unconditionally
    (st : St) (sessionId userId : Nat) (now : Int) (session : Session)
    (user : UserRec)
    (hs : st.sessions sessionId = some session)
    (hu : st.users userId = some user) :
    (leaveSession st sessionId userId now).1 = .ok ∧
    (leaveSession st sessionId userId now).2.users userId
      = some (clearPtr user) ∧
    (userId ∉ session.participants →
      ((leaveSession st sessionId userId now).2.sessions sessionId).map
        Session.participants = some session.participants) ∧
    (∀ z, z ≠ sessionId →
      (leaveSession st sessionId userId now).2.sessions z
        = st.sessions z) := by
  refine ⟨?_, ?_, ?_, ?_⟩
  · simp [leaveSession, hs, hu]
  · simp [leaveSession, hs, hu]
  · intro hmem
    have hfilt : session.participants.filter (fun p => p ≠ userId)
        = session.participants :=
      List.filter_eq_self.mpr (fun a ha =>
        decide_eq_true (fun hEq => hmem (hEq ▸ ha)))
    simp only [leaveSession, hs, hu, hfilt]
    split <;> simp
  · intro z hz
    simp only [leaveSession, hs, hu]
    rw [fupdate_other _ _ _ _ hz]

/-- User 3: not a participant of session 0, pointer at session 9. -/
def user3Leave : UserRec :=
  { friends := [], listenTogetherRequests := []
    activeListenSession := some 9 }

/-- `stLeave` extended with user 3 and a second active session 9 that
user 3 actually belongs to. -/
def stLeave3 : St :=
  { users := fun n =>
      if n = 3 then some user3Leave else stLeave.users n
    sessions := fun n =>
      if n = 9 then
        some { sessEx with host := 4, participants := [4, 3] }
      else stLeave.sessions n
    requests := fun _ => none
    nextSessionId := 10 }

/-- Witness for C10: user 3 — who is in `stLeave3` a participant of
nothing but points at session 9 — leaves session 0; their pointer is
cleared while session 0's membership and session 9 are untouched. -/
theorem leave_clears_pointer_unconditionally_witness :
    stLeave3.sessions 0 = some sessEx ∧
    stLeave3.users 3 = some user3Leave ∧
    user3Leave.activeListenSession = some 9 ∧
    ((leaveSession stLeave3 0 3 9).1 = .ok ∧
      (leaveSession stLeave3 0 3 9).2.users 3 = some (clearPtr user3Leave) ∧
      (3 ∉ sessEx.participants →
        ((leaveSession stLeave3 0 3 9).2.sessions 0).map
          Session.participants = some sessEx.participants) ∧
      (∀ z, z ≠ 0 →
        (leaveSession stLeave3 0 3 9).2.sessions z
          = stLeave3.sessions z)) :=
  ⟨rfl, rfl, rfl,
    leave_clears_pointer_unconditionally stLeave3 0 3 9 sessEx user3Leave
      rfl rfl⟩

/-! ### C2: accepting while already in a session supersedes it -/

theorem deactivatePointer_users (st : St) (ptr : Option Nat) (now : Int) :
    (deactivatePointer st ptr now).users = st.users := by
  unfold deactivatePointer
  cases ptr with
  | none => rfl
  | some sid => cases h : st.sessions sid <;> simp [h]

theorem deactivatePointer_sessions_deactivated (st : St) (ptr : Option Nat)
    (now : Int) (x : Nat) (s : Session) (h : st.sessions x = some s) :
    (deactivatePointer st ptr now).sessions x = some s ∨
    (deactivatePointer st ptr now).sessions x
      = some { s with isActive := false, endedAt := some now } := by
  cases ptr with
  | none => exact Or.inl h
  | some sid =>
    by_cases hx : sid = x
    · subst hx
      right
      simp [deactivatePointer, h, fupdate]
    · left
      cases h2 : st.sessions sid with
      | none => simp [deactivatePointer, h2, h]
      | some s2 =>
        simp [deactivatePointer, h2,
          fupdate_other _ _ _ _ (fun hEq : x = sid => hx hEq.symm), h]

theorem deactivatePointer_self (st : St) (now : Int) (x : Nat) (s : Session)
    (h : st.sessions x = some s) :
    (deactivatePointer st (some x) now).sessions x
      = some { s with isActive := false, endedAt := some now } := by
  simp [deactivatePointer, h, fupdate]

/-- The one-step unfolding of a successful accept. -/
theorem acceptRequest_success_unfold
    (st : St) (requestId userId : Nat) (now : Int) (inv : Invitation)
    (hostUser uRec : UserRec)
    (hr : st.requests requestId = some inv)
    (hto : inv.toUser = userId)
    (hpending : inv.status = .pending)
    (hnotexp : ¬ inv.expiresAt < now)
    (hhost : st.users inv.fromUser = some hostUser)
    (hu : st.users userId = some uRec) :
    acceptRequest st requestId userId now =
      (.ok st.nextSessionId,
        { users := (fupdate (fupdate
              (deactivatePointer
                (deactivatePointer st hostUser.activeListenSession now)
                uRec.activeListenSession now).users
              inv.fromUser
              (some { hostUser with
                activeListenSession := some st.nextSessionId }))
            userId
            (some { uRec with
              activeListenSession := some st.nextSessionId
              listenTogetherRequests :=
                (uRec.listenTogetherRequests.filter
                  (fun i => i ≠ requestId)) }))
          sessions := (fupdate
            (deactivatePointer
              (deactivatePointer st hostUser.activeListenSession now)
              uRec.activeListenSession now).sessions
            st.nextSessionId
            (some (newSessionDoc inv.fromUser userId now)))
          requests := (fupdate
            (deactivatePointer
              (deactivatePointer st hostUser.activeListenSession now)
              uRec.activeListenSession now).requests
            requestId
            (some { inv with
              status := .accepted
              sessionId := some st.nextSessionId }))
          nextSessionId := st.nextSessionId + 1 }) := by
  simp [acceptRequest, hr, hto, hpending, hnotexp, hhost, hu]

/-- C2: when the recipient of a valid pending invitation already has
an active session `s1`, the accept succeeds, the freshly allocated
session id differs from `s1`, `s1` ends (`isActive=false`,
`endedAt=now`), the acceptor's pointer references the new session —
never `s1` — and the new record has host = inviter, participants =
[inviter, invitee], empty queue, and paused playback at position 0. -/
theorem accept_supersedes_prior_session
    (st : St) (requestId userId : Nat) (now : Int) (inv : Invitation)
    (hostUser uRec : UserRec) (s1 : Nat) (sess1 : Session)
    (hr : st.requests requestId = some inv)
    (hto : inv.toUser = userId)
    (hpending : inv.status = .pending)
    (hnotexp : ¬ inv.expiresAt < now)
    (hhost : st.users inv.fromUser = some hostUser)
    (hu : st.users userId = some uRec)
    (hptr : uRec.activeListenSession = some s1)
    (hs1 : st.sessions s1 = some sess1)
    (hfresh : st.sessions st.nextSessionId = none) :
    (acceptRequest st requestId userId now).1 = .ok st.nextSessionId ∧
    st.nextSessionId ≠ s1 ∧
    ((acceptRequest st requestId userId now).2.sessions s1).map
      (fun s => (s.isActive, s.endedAt)) = some (false, some now) ∧
    ((acceptRequest st requestId userId now).2.users userId).map
      UserRec.activeListenSession = some (some st.nextSessionId) ∧
    (acceptRequest st requestId userId now).2.sessions st.nextSessionId
      = some { host := inv.fromUser
               participants := [inv.fromUser, userId]
               currentTrack := none
               queue := []
               playbackState :=
                 { position := 0, isPlaying := false, updatedAt := now }
               isActive := true
               endedAt := none } := by
  have hne : st.nextSessionId ≠ s1 := by
    intro hEq
    rw [hEq, hs1] at hfresh
    exact Option.noConfusion hfresh
  have hstep := acceptRequest_success_unfold st requestId userId now inv
    hostUser uRec hr hto hpending hnotexp hhost hu
  refine ⟨by rw [hstep], hne, ?_, ?_, ?_⟩
  · rw [hstep]
    show ((fupdate _ _ _ s1).map _) = _
    rw [fupdate_other _ _ _ _ (Ne.symm hne)]
    rw [hptr]
    rcases deactivatePointer_sessions_deactivated st
        hostUser.activeListenSession now s1 sess1 hs1 with h1 | h1
    · rw [deactivatePointer_self _ now s1 sess1 h1]
      rfl
    · rw [deactivatePointer_self _ now s1
        { sess1 with isActive := false, endedAt := some now } h1]
      rfl
  · rw [hstep]
    simp [fupdate]
  · rw [hstep]
    simp [fupdate, newSessionDoc]

/-- The inviter's user record in the C2 witness store. -/
def hostAcc : UserRec :=
  { friends := [2], listenTogetherRequests := []
    activeListenSession := none }

/-- The invitee's user record in the C2 witness store: already bound
to active session 5. -/
def partAcc : UserRec :=
  { friends := [1], listenTogetherRequests := [0]
    activeListenSession := some 5 }

/-- A store where user 2 holds pending invitation 0 from user 1 while
being a participant of the active session 5. -/
def stAcc : St :=
  { users := fun n =>
      if n = 1 then some hostAcc
      else if n = 2 then some partAcc else none
    sessions := fun n => if n = 5 then some sessEx else none
    requests := fun n => if n = 0 then some invPending else none
    nextSessionId := 6 }

/-- Witness for C2: user 2 accepts invitation 0 at time 5; session 5
ends, user 2 now points at the new session 6. -/
theorem accept_supersedes_prior_session_witness :
    stAcc.requests 0 = some invPending ∧ invPending.toUser = 2 ∧
    invPending.status = .pending ∧ ¬ invPending.expiresAt < 5 ∧
    stAcc.users invPending.fromUser = some hostAcc ∧
    stAcc.users 2 = some partAcc ∧
    partAcc.activeListenSession = some 5 ∧
    stAcc.sessions 5 = some sessEx ∧
    stAcc.sessions stAcc.nextSessionId = none ∧
    ((acceptRequest stAcc 0 2 5).1 = .ok stAcc.nextSessionId ∧
      stAcc.nextSessionId ≠ 5 ∧
      ((acceptRequest stAcc 0 2 5).2.sessions 5).map
        (fun s => (s.isActive, s.endedAt)) = some (false, some 5) ∧
      ((acceptRequest stAcc 0 2 5).2.users 2).map
        UserRec.activeListenSession = some (some stAcc.nextSessionId) ∧
      (acceptRequest stAcc 0 2 5).2.sessions stAcc.nextSessionId
        = some { host := invPending.fromUser
                 participants := [invPending.fromUser, 2]
                 currentTrack := none
                 queue := []
                 playbackState :=
                   { position := 0, isPlaying := false, updatedAt := 5 }
                 isActive := true
                 endedAt := none }) :=
  ⟨rfl, rfl, rfl, by decide, rfl, rfl, rfl, rfl, rfl,
    accept_supersedes_prior_session stAcc 0 2 5 invPending hostAcc partAcc
      5 sessEx rfl rfl rfl (by decide) rfl rfl rfl rfl rfl⟩

end Audiloy
